import Mathlib

/-!
Verification development for the `gitext` workflow-safety engine.

The Go sources are shallowly embedded: the command executor (`pkg/git/git.go`)
becomes a pure function of an abstract world oracle, the read-only inspector
queries (`pkg/git/output.go`, `pkg/git/validation.go`) become pure functions of
the executor, and the workflow command bodies (`internal/commands/*.go`) become
functions that return both a result and the ordered trace of external git
commands that would actually be executed.  Machine state external to the
program (the repository) is represented by the oracle
`world : List String → Except String String`, mapping a git argument vector to
the combined output (ok) or an execution failure (error).
-/

namespace Gitext

/-- Characterwise whitespace trim of both ends, the semantics of Go's
`strings.TrimSpace` (stated over the character list of a string). -/
def trimChars (cs : List Char) : List Char :=
  ((cs.dropWhile Char.isWhitespace).reverse.dropWhile Char.isWhitespace).reverse

/-- Embeds `strings.TrimSpace`. -/
def trimS (s : String) : String :=
  String.mk (trimChars s.data)

/-- Split a character list at every newline, keeping empty pieces; the
accumulator holds the current piece reversed. -/
def splitLinesAux : List Char → List Char → List String
  | [], acc => [String.mk acc.reverse]
  | c :: rest, acc =>
    if c = '\n' then String.mk acc.reverse :: splitLinesAux rest []
    else splitLinesAux rest (c :: acc)

/-- Embeds `strings.Split(s, "\n")`. -/
def linesOf (s : String) : List String :=
  splitLinesAux s.data []

/-- Piecewise split on whitespace runs, dropping empty pieces; the
accumulator holds the current field reversed. -/
def fieldsAux : List Char → List Char → List String
  | [], [] => []
  | [], acc => [String.mk acc.reverse]
  | c :: rest, acc =>
    if c.isWhitespace then
      (if acc.isEmpty then fieldsAux rest [] else String.mk acc.reverse :: fieldsAux rest [])
    else fieldsAux rest (c :: acc)

/-- Embeds `strings.Fields`. -/
def fieldsOf (s : String) : List String :=
  fieldsAux s.data []

/-- Embeds `strings.HasPrefix(line, "*")`. -/
def startsWithStar (s : String) : Bool :=
  match s.data with
  | '*' :: _ => true
  | _ => false

/-- Abstract outcome of really executing one git command: combined output on
success, or a failure message.  Mirrors the `(string, error)` pair that
`exec.Cmd.CombinedOutput` feeds into `RunWithDir`. -/
abbrev World := List String → Except String String

/-- Embeds the `Git` struct of `pkg/git/git.go`: the dry-run flag plus the
external world the commands would run against (verbose only affects echoing,
which is not modelled). -/
structure Exec where
  dryRun : Bool
  world : World

/-- Embeds `Git.RunWithDir`/`Run`/`RunWithTimeout` (`pkg/git/git.go` lines
35-58): in dry-run mode execution is skipped and an empty successful result is
returned; otherwise the command runs and its combined output is
whitespace-trimmed (`strings.TrimSpace`). -/
def RunWithTimeout (g : Exec) (args : List String) : Except String String :=
  if g.dryRun then .ok "" else
    match g.world args with
    | .ok out => .ok (trimS out)
    | .error e => .error e

/-- The external commands actually executed by one `RunWithTimeout` call:
none in dry-run mode, exactly the given argument vector otherwise. -/
def execTrace (g : Exec) (args : List String) : List (List String) :=
  if g.dryRun then [] else [args]

/-- One executor call together with its execution trace. -/
def RunT (g : Exec) (args : List String) : Except String String × List (List String) :=
  (RunWithTimeout g args, execTrace g args)

/-- Embeds `Git.GetCurrentBranch` (`pkg/git/output.go` lines 9-15). -/
def GetCurrentBranch (g : Exec) : Except String String :=
  match RunWithTimeout g ["rev-parse", "--abbrev-ref", "HEAD"] with
  | .error e => .error e
  | .ok out => .ok (trimS out)

/-- Embeds `Git.IsWorkingTreeClean` (`pkg/git/output.go` lines 18-24). -/
def IsWorkingTreeClean (g : Exec) : Except String Bool :=
  match RunWithTimeout g ["status", "--porcelain"] with
  | .error e => .error e
  | .ok out => .ok (trimS out == "")

/-- Decimal value of a digit run. -/
def digitsVal (cs : List Char) : Nat :=
  cs.foldl (fun n c => 10 * n + (c.toNat - '0'.toNat)) 0

/-- Parse an optional sign followed by a non-empty digit run, ignoring
anything after the digits. -/
def parseIntFrom (sign : Int) (rest : List Char) : Option Int :=
  let digits := rest.takeWhile Char.isDigit
  if digits.isEmpty then none else some (sign * (digitsVal digits : Int))

/-- Embeds `parseInt` (`pkg/git/output.go` lines 176-180), i.e.
`fmt.Sscanf(s, "%d")`: skip leading spaces, optional sign, then a non-empty
run of digits. -/
def parseInt (s : String) : Option Int :=
  match s.data.dropWhile Char.isWhitespace with
  | '-' :: rest => parseIntFrom (-1) rest
  | '+' :: rest => parseIntFrom 1 rest
  | rest => parseIntFrom 1 rest

/-- Embeds `Git.GetAheadBehind` (`pkg/git/output.go` lines 69-97): resolves the
current branch, counts left/right with `rev-list`, and requires exactly two
whitespace-separated fields (`behind ahead`). -/
def GetAheadBehind (g : Exec) (remote branch : String) : Except String (Int × Int) :=
  match GetCurrentBranch g with
  | .error e => .error e
  | .ok currentBranch =>
    match RunWithTimeout g ["rev-list", "--left-right", "--count",
        remote ++ "/" ++ branch ++ "..." ++ currentBranch] with
    | .error e => .error e
    | .ok out =>
      let parts := fieldsOf out
      if h : parts.length = 2 then
        match parseInt (parts.get ⟨0, by omega⟩), parseInt (parts.get ⟨1, by omega⟩) with
        | some behind, some ahead => .ok (ahead, behind)
        | _, _ => .error "failed to parse rev-list counts"
      else .error ("unexpected output from rev-list: " ++ out)

/-- First-seen-order deduplication with an explicit seen-set accumulator;
embeds the `map[string]bool` + append idiom used by `GetCommitAuthors`
(`pkg/git/output.go` lines 107-119). -/
def firstSeenDedupAux : List String → List String → List String
  | _, [] => []
  | seen, b :: rest =>
    if seen.contains b then firstSeenDedupAux seen rest
    else b :: firstSeenDedupAux (b :: seen) rest

/-- Deduplicate a list of strings keeping the first occurrence of each. -/
def firstSeenDedup (l : List String) : List String :=
  firstSeenDedupAux [] l

/-- Split trimmed output into trimmed, non-empty lines; the common parsing
step of `GetCommitAuthors` and `GetMergedBranches`. -/
def outputLines (out : String) : List String :=
  ((linesOf (trimS out)).map trimS).filter (fun l => l != "")

/-- Embeds `Git.GetCommitAuthors` (`pkg/git/output.go` lines 100-122): the
distinct author names, first-seen order, over the last `count` commits. -/
def GetCommitAuthors (g : Exec) (count : Nat) : Except String (List String) :=
  match RunWithTimeout g ["log", "-n", toString count, "--format=%an"] with
  | .error e => .error e
  | .ok out => .ok (firstSeenDedup (outputLines out))

/-- Embeds `Git.GetMergedBranches` (`pkg/git/output.go` lines 125-143): lines
of `branch --merged`, dropping empties, the target branch itself, and the
current-branch marker line. -/
def GetMergedBranches (g : Exec) (intoBranch : String) : Except String (List String) :=
  match RunWithTimeout g ["branch", "--merged", intoBranch, "--format", "%(refname:short)"] with
  | .error e => .error e
  | .ok out =>
    .ok (((linesOf (trimS out)).map trimS).filter
      (fun line => !(line == "" || line == intoBranch || startsWithStar line)))

/-- Embeds `Git.IsDetachedHEAD` (`pkg/git/output.go` lines 146-153): a failing
`symbolic-ref` query is itself the detached-HEAD signal and is never
propagated as an error (the second component is the Go `error` return, always
`nil` = `none`). -/
def IsDetachedHEAD (g : Exec) : Bool × Option String :=
  match RunWithTimeout g ["symbolic-ref", "-q", "HEAD"] with
  | .error _ => (true, none)
  | .ok out => (trimS out == "", none)

/-- Embeds `Git.BranchExists` (`pkg/git/output.go` lines 51-57). -/
def BranchExists (g : Exec) (branch : String) : Except String Bool :=
  match RunWithTimeout g ["branch", "--list", branch] with
  | .error e => .error e
  | .ok out => .ok (trimS out != "")

/-- Embeds `Git.RemoteBranchExists` (`pkg/git/output.go` lines 60-66). -/
def RemoteBranchExists (g : Exec) (remote branch : String) : Except String Bool :=
  match RunWithTimeout g ["ls-remote", "--heads", remote, branch] with
  | .error e => .error e
  | .ok out => .ok (trimS out != "")

/-!
Branch-name pattern matching.  `update.go` lines 67-75, `start.go` (in
`NewStartCmd`) and `retarget.go` lines 67-76 all validate a branch name with

  pattern := strings.ReplaceAll(cfg.Naming.Feature, "*", ".*")
  matched, err := regexp.MatchString("^"+pattern+"$", branchName)

We embed the fragment of the regular-expression language this produces for
configuration patterns built from ordinary characters, `.` and `*`: every `.`
of the pattern is an any-character atom, the replaced `*` becomes the starred
any-character atom `.*`, and every other character is a literal atom, with the
match anchored at both ends (full match).
-/

/-- One atom of the compiled anchored regular expression. -/
inductive Atom where
  | lit (c : Char)
  | anyChar
  | anyStar
deriving DecidableEq, Repr

/-- Compilation of one pattern character, following the
`ReplaceAll("*", ".*")` + regex reading described above. -/
def charAtom (c : Char) : Atom :=
  if c == '*' then .anyStar else if c == '.' then .anyChar else .lit c

/-- Anchored matching of an atom sequence against a character list (a full
regex match of `^atoms$`); a starred any-character atom matches an arbitrary
suffix split, expressed by trying every drop count. -/
def matchAtoms : List Atom → List Char → Bool
  | [], ds => ds.isEmpty
  | .lit _ :: _, [] => false
  | .lit c :: as, d :: ds => c == d && matchAtoms as ds
  | .anyChar :: _, [] => false
  | .anyChar :: as, _ :: ds => matchAtoms as ds
  | .anyStar :: as, ds => (List.range (ds.length + 1)).any (fun k => matchAtoms as (ds.drop k))

/-- The branch-name pattern check used by Start, Update and Retarget, on
character lists: compile the pattern and match it anchored at both ends. -/
def matchesPattern (b p : List Char) : Bool :=
  matchAtoms (p.map charAtom) b

/-- String-level wrapper of `matchesPattern`, as the commands call it. -/
def matchesPatternS (b p : String) : Bool :=
  matchesPattern b.toList p.toList

/-- The characters that are special in the regular-expression syntax the
pattern is compiled into; a pattern character outside this set is matched
literally. -/
def regexMeta : List Char :=
  ['.', '*', '+', '?', '(', ')', '[', ']', '\x7b', '\x7d', '^', '$', '|', '\\']


/-!
Configuration model (`pkg/config/config.go`).  The YAML file is external
input; we embed its effect: `Load` sets defaults, overlays the file's values
(a field absent from the file, or explicitly empty, leaves the default in
place thanks to the `if field == ""` default loop), validates, and returns the
resolved configuration or an error.  Only the fields the Safety Engine reads
are modelled (branch names, naming patterns, remote name).
-/

/-- Resolved configuration consumed by the workflow operations; embeds the
fields of `Config` in `pkg/config/config.go` used by the engine. -/
structure Config where
  production : String
  stage : String
  remoteName : String
  feature : String
  hotfix : String
deriving DecidableEq, Repr

/-- Default production branch name (`DefaultProductionBranch`). -/
def DefaultProductionBranch : String := "production"

/-- Default stage branch name (`DefaultStageBranch`). -/
def DefaultStageBranch : String := "stage"

/-- Default remote name (`DefaultRemoteName`). -/
def DefaultRemoteName : String := "origin"

/-- Default feature naming pattern (`DefaultFeaturePattern`). -/
def DefaultFeaturePattern : String := "feature/*"

/-- Default hotfix naming pattern (`DefaultHotfixPattern`). -/
def DefaultHotfixPattern : String := "hotfix/*"

/-- The configuration with every default applied (`Load` before reading any
file). -/
def defaultConfig : Config :=
  { production := DefaultProductionBranch
    stage := DefaultStageBranch
    remoteName := DefaultRemoteName
    feature := DefaultFeaturePattern
    hotfix := DefaultHotfixPattern }

/-- The values a parsed `.gitext` file contributes; an empty string stands for
a field that is absent from the file (the Go zero value the YAML decoder
leaves untouched). -/
structure RawConfig where
  production : String
  stage : String
  remoteName : String
  feature : String
  hotfix : String
deriving DecidableEq, Repr

/-- The possible situations `Load` faces before resolution: no git root, an
unreadable file, an unparsable file, no file at all, or a parsed file. -/
inductive LoadInput where
  | noRepo
  | readFailed
  | parseFailed
  | noFile
  | file (raw : RawConfig)
deriving DecidableEq, Repr

/-- Overlay a parsed file over the defaults: a non-empty file value wins, an
empty one falls back to the default (the `if config.X == ""` loop of `Load`,
`pkg/config/config.go` lines 66-81). -/
def resolveConfig (raw : RawConfig) : Config :=
  { production := if raw.production == "" then DefaultProductionBranch else raw.production
    stage := if raw.stage == "" then DefaultStageBranch else raw.stage
    remoteName := if raw.remoteName == "" then DefaultRemoteName else raw.remoteName
    feature := if raw.feature == "" then DefaultFeaturePattern else raw.feature
    hotfix := if raw.hotfix == "" then DefaultHotfixPattern else raw.hotfix }

/-- Embeds `Config.Validate` (`pkg/config/config.go` lines 92-106), with the
source's check order. -/
def Config.Validate (c : Config) : Except String Unit :=
  if c.production == "" then .error "branch.production cannot be empty"
  else if c.stage == "" then .error "branch.stage cannot be empty"
  else if c.production == c.stage then .error "branch.production and branch.stage must be different"
  else if c.remoteName == "" then .error "remote.name cannot be empty"
  else .ok ()

/-- Embeds `Load` (`pkg/config/config.go` lines 38-89): find the git root,
apply defaults, overlay the file when present, validate, and return the
resolved configuration. -/
def Load : LoadInput → Except String Config
  | .noRepo => .error "not in a git repository"
  | .readFailed => .error "failed to read .gitext"
  | .parseFailed => .error "failed to parse .gitext"
  | .noFile =>
    match defaultConfig.Validate with
    | .error e => .error e
    | .ok _ => .ok defaultConfig
  | .file raw =>
    match (resolveConfig raw).Validate with
    | .error e => .error e
    | .ok _ => .ok (resolveConfig raw)


/-!
Workflow operations.  Each command body is embedded as a function returning
the Go `error` result together with the ordered trace of external git
commands actually executed (dry-run executes nothing, so contributes nothing
to the trace).  Flag parsing and terminal output are not part of the trace;
the `config.Load` step is modelled by passing the resolved `Config`.
-/

/-- `GetCurrentBranch` with its execution trace. -/
def GetCurrentBranchT (g : Exec) : Except String String × List (List String) :=
  (GetCurrentBranch g, execTrace g ["rev-parse", "--abbrev-ref", "HEAD"])

/-- One iteration of the merged-branch accumulation loops of `NewCleanupCmd`
(`internal/commands/cleanup.go` lines 44-63): the state is the seen set
(`mergedMap`) and the accumulated list (`allMergedBranches`); a branch is
appended when unseen and different from the current branch. -/
def cleanupStep (currentBranch : String) (st : List String × List String)
    (b : String) : List String × List String :=
  if !(st.1.contains b) && b != currentBranch then (b :: st.1, st.2 ++ [b]) else st

/-- The candidate list Cleanup builds: the stage-merged loop followed by the
production-merged loop, sharing one seen set. -/
def cleanupCandidates (currentBranch : String) (stageMerged prodMerged : List String) :
    List String :=
  (prodMerged.foldl (cleanupStep currentBranch)
    (stageMerged.foldl (cleanupStep currentBranch) ([], []))).2

/-- The spec's reading of Cleanup's candidate list: the union (concatenation)
of the branches merged into stage and into production, with the current
branch excluded and duplicates removed keeping first occurrences. -/
def specCleanupCandidates (currentBranch : String) (stageMerged prodMerged : List String) :
    List String :=
  firstSeenDedup ((stageMerged ++ prodMerged).filter (fun b => b != currentBranch))

/-- The delete commands issued by Cleanup's hard-mode loop
(`internal/commands/cleanup.go` lines 84-104): protected branches are
skipped, a safe delete is attempted first, and a forced delete only when the
safe delete fails. -/
def deleteTrace (g : Exec) (cfg : Config) : List String → List (List String)
  | [] => []
  | b :: rest =>
    if b == cfg.stage || b == cfg.production then deleteTrace g cfg rest
    else
      execTrace g ["branch", "-d", b] ++
      (match RunWithTimeout g ["branch", "-d", b] with
       | .ok _ => []
       | .error _ => execTrace g ["branch", "-D", b]) ++
      deleteTrace g cfg rest

/-- The proposition that a command is a branch-delete (safe or forced) of the
named branch. -/
def deletesBranch (cmd : List String) (b : String) : Prop :=
  cmd = ["branch", "-d", b] ∨ cmd = ["branch", "-D", b]

/-- Embeds `NewCleanupCmd`'s `RunE` body (`internal/commands/cleanup.go`):
repository check, current branch, both merged-branch queries (their errors
are swallowed), candidate computation, and — only in hard mode with a
non-empty candidate list — the delete loop. -/
def Cleanup (g : Exec) (cfg : Config) (hard : Bool) :
    Except String Unit × List (List String) :=
  let t0 := execTrace g ["rev-parse", "--git-dir"]
  match RunWithTimeout g ["rev-parse", "--git-dir"] with
  | .error _ => (.error "not in a git repository", t0)
  | .ok _ =>
    let t1 := execTrace g ["rev-parse", "--abbrev-ref", "HEAD"]
    match GetCurrentBranch g with
    | .error e => (.error ("failed to get current branch: " ++ e), t0 ++ t1)
    | .ok currentBranch =>
      let t2 := execTrace g ["branch", "--merged", cfg.stage, "--format", "%(refname:short)"]
      let t3 := execTrace g ["branch", "--merged", cfg.production, "--format", "%(refname:short)"]
      let stageMerged := match GetMergedBranches g cfg.stage with
        | .ok l => l
        | .error _ => []
      let prodMerged := match GetMergedBranches g cfg.production with
        | .ok l => l
        | .error _ => []
      let candidates := cleanupCandidates currentBranch stageMerged prodMerged
      let reads := t0 ++ t1 ++ t2 ++ t3
      if candidates.isEmpty then (.ok (), reads)
      else if hard then (.ok (), reads ++ deleteTrace g cfg candidates)
      else (.ok (), reads)

/-- The Safety Validator's shared-branch predicate over resolved Inspector
results: the branch exists on the remote and more than one distinct recent
author was sampled (`internal/commands/retarget.go` lines 92-105). -/
def isSharedBranch (remoteExists : Bool) (recentAuthors : List String) : Bool :=
  remoteExists && decide (1 < recentAuthors.length)

/-- Outcome of Retarget's shared-branch gate. -/
inductive SharedCheck where
  | refused
  | proceeded
deriving DecidableEq, Repr

/-- Embeds the shared-branch gate of `NewRetargetCmd`
(`internal/commands/retarget.go` lines 92-105) over the raw query results:
`if err == nil && remoteBranchExists`, then `if err == nil && len(authors) > 1`,
then refuse unless the acknowledgement flag is set; a failing query falls
through and the gate proceeds. -/
def retargetSharedCheck (remoteExists : Except String Bool)
    (authors : Except String (List String)) (iKnowWhatImDoing : Bool) : SharedCheck :=
  match remoteExists with
  | .ok true =>
    match authors with
    | .ok as =>
      if 1 < as.length then (if iKnowWhatImDoing then .proceeded else .refused)
      else .proceeded
    | .error _ => .proceeded
  | _ => .proceeded

/-- Embeds `Git.ValidateBranchExists` (`pkg/git/validation.go` lines 26-46)
with its execution trace: local `branch --list` first, `ls-remote` only when
the local check finds nothing. -/
def ValidateBranchExistsT (g : Exec) (branch remote : String) :
    Except String Unit × List (List String) :=
  match RunT g ["branch", "--list", branch] with
  | (.error e, t) => (.error e, t)
  | (.ok out, t) =>
    if trimS out != "" then (.ok (), t)
    else
      match RunT g ["ls-remote", "--heads", remote, branch] with
      | (.error e, t2) => (.error e, t ++ t2)
      | (.ok out2, t2) =>
        if trimS out2 != "" then (.ok (), t ++ t2)
        else (.error ("branch '" ++ branch ++ "' does not exist locally or on '" ++
          remote ++ "'"), t ++ t2)

/-- Embeds the validation phase of `NewRetargetCmd`
(`internal/commands/retarget.go` lines 33-105), in source order: repository
check, current branch, feature-pattern check unless overridden (a local
computation, no git command), remote reachability, clean working tree, and
the shared-branch gate whose query failures are swallowed.  On success the
current branch name is returned. -/
def RetargetChecks (g : Exec) (cfg : Config) (override iKnowWhatImDoing : Bool) :
    Except String String × List (List String) :=
  match RunT g ["rev-parse", "--git-dir"] with
  | (.error _, t0) => (.error "not in a git repository", t0)
  | (.ok _, t0) =>
    match GetCurrentBranchT g with
    | (.error e, t1) => (.error ("failed to get current branch: " ++ e), t0 ++ t1)
    | (.ok currentBranch, t1) =>
      if !override && !matchesPatternS currentBranch cfg.feature then
        (.error ("current branch '" ++ currentBranch ++ "' does not match feature pattern '"
          ++ cfg.feature ++ "' (use --override to bypass)"), t0 ++ t1)
      else
        match RunT g ["remote", "get-url", cfg.remoteName] with
        | (.error _, t2) =>
          (.error ("remote '" ++ cfg.remoteName ++ "' does not exist → run 'git remote add "
            ++ cfg.remoteName ++ " <url>'"), t0 ++ t1 ++ t2)
        | (.ok url, t2) =>
          if url == "" then
            (.error ("remote '" ++ cfg.remoteName ++ "' has no URL configured"),
              t0 ++ t1 ++ t2)
          else
            match RunT g ["status", "--porcelain"] with
            | (.error e, t3) =>
              (.error ("failed to check working tree: " ++ e), t0 ++ t1 ++ t2 ++ t3)
            | (.ok st, t3) =>
              if trimS st != "" then
                (.error "working tree has uncommitted changes", t0 ++ t1 ++ t2 ++ t3)
              else
                match RunT g ["ls-remote", "--heads", cfg.remoteName, currentBranch] with
                | (.error _, t4) => (.ok currentBranch, t0 ++ t1 ++ t2 ++ t3 ++ t4)
                | (.ok ls, t4) =>
                  if trimS ls != "" then
                    match RunT g ["log", "-n", "10", "--format=%an"] with
                    | (.error _, t5) =>
                      (.ok currentBranch, t0 ++ t1 ++ t2 ++ t3 ++ t4 ++ t5)
                    | (.ok out, t5) =>
                      let authors := firstSeenDedup (outputLines out)
                      if 1 < authors.length && !iKnowWhatImDoing then
                        (.error "branch appears shared → use --i-know-what-im-doing to proceed",
                          t0 ++ t1 ++ t2 ++ t3 ++ t4 ++ t5)
                      else (.ok currentBranch, t0 ++ t1 ++ t2 ++ t3 ++ t4 ++ t5)
                  else (.ok currentBranch, t0 ++ t1 ++ t2 ++ t3 ++ t4)

/-- Embeds the mutation phase of `NewRetargetCmd`
(`internal/commands/retarget.go` lines 107-132): fetch, validate that the
onto- and from- branches exist, then `rebase --onto`. -/
def RetargetMutate (g : Exec) (cfg : Config) : Except String Unit × List (List String) :=
  match RunT g ["fetch", cfg.remoteName] with
  | (.error e, t6) => (.error ("failed to fetch: " ++ e), t6)
  | (.ok _, t6) =>
    match ValidateBranchExistsT g cfg.production cfg.remoteName with
    | (.error e, t7) =>
      (.error ("target branch '" ++ cfg.production ++ "' does not exist: " ++ e), t6 ++ t7)
    | (.ok _, t7) =>
      match ValidateBranchExistsT g cfg.stage cfg.remoteName with
      | (.error e, t8) =>
        (.error ("source branch '" ++ cfg.stage ++ "' does not exist: " ++ e),
          t6 ++ t7 ++ t8)
      | (.ok _, t8) =>
        match RunT g ["rebase", "--onto", cfg.remoteName ++ "/" ++ cfg.production,
            cfg.remoteName ++ "/" ++ cfg.stage] with
        | (.error e, t9) => (.error ("rebase failed: " ++ e), t6 ++ t7 ++ t8 ++ t9)
        | (.ok _, t9) => (.ok (), t6 ++ t7 ++ t8 ++ t9)

/-- The whole Retarget operation: the validation phase, then — only when every
check passed — the mutation phase. -/
def Retarget (g : Exec) (cfg : Config) (override iKnowWhatImDoing : Bool) :
    Except String Unit × List (List String) :=
  match RetargetChecks g cfg override iKnowWhatImDoing with
  | (.error e, t) => (.error e, t)
  | (.ok _, t) =>
    match RetargetMutate g cfg with
    | (r, t2) => (r, t ++ t2)

/-- Embeds the apply phase of `NewUpdateCmd` (`internal/commands/update.go`
lines 104-121): rebase or merge the remote source ref; on a non-zero exit the
`error` value is returned to the command layer (not a crash) and the emitted
next-step suggestions (the `output.Next` lines, third component) name the
continuation command for the mode. -/
def updateApplyChanges (g : Exec) (remoteName sourceBranch mode : String) :
    Except String Unit × List (List String) × List String :=
  let remoteRef := remoteName ++ "/" ++ sourceBranch
  if mode == "rebase" then
    match RunT g ["rebase", remoteRef] with
    | (.error e, t) =>
      (.error ("rebase failed: " ++ e), t, ["resolve conflicts, then run: git rebase --continue"])
    | (.ok _, t) => (.ok (), t, [])
  else
    match RunT g ["merge", remoteRef] with
    | (.error e, t) =>
      (.error ("merge failed: " ++ e), t, ["resolve conflicts, then run: git commit"])
    | (.ok _, t) => (.ok (), t, [])

/-!
Concrete worlds used by witnesses and counterexamples.
-/

/-- Decidable equality for `Except`, used to evaluate results on concrete
inputs. -/
instance {ε α : Type} [DecidableEq ε] [DecidableEq α] : DecidableEq (Except ε α) := fun x y =>
  match x, y with
  | .ok a, .ok b => if h : a = b then isTrue (by rw [h]) else isFalse (by simp [h])
  | .error a, .error b => if h : a = b then isTrue (by rw [h]) else isFalse (by simp [h])
  | .ok _, .error _ => isFalse (by simp)
  | .error _, .ok _ => isFalse (by simp)

/-- The default-valued configuration used by concrete witnesses. -/
def cfgW : Config :=
  ⟨"production", "stage", "origin", "feature/*", "hotfix/*"⟩

/-- A world whose working tree is dirty and whose current branch is one
commit ahead and two behind its remote counterpart. -/
def wDirty : World := fun args =>
  if args = ["status", "--porcelain"] then .ok " M file.txt"
  else if args = ["rev-parse", "--abbrev-ref", "HEAD"] then .ok "feature/x"
  else if args = ["rev-list", "--left-right", "--count", "origin/main...feature/x"] then .ok "2 1"
  else .error "unexpected"

/-- A world where the symbolic-ref query fails (detached HEAD). -/
def wSymFail : World := fun _ =>
  .error "fatal: ref HEAD is not a symbolic ref"

/-- A world where rebase and merge both exit non-zero with conflicts. -/
def wConflict : World := fun args =>
  if args = ["rebase", "origin/stage"] then .error "exit status 1"
  else if args = ["merge", "origin/stage"] then .error "exit status 1"
  else .ok ""

/-- A world in which every Retarget check passes (clean tree, feature branch,
no remote copy of the branch) and the mutation phase succeeds. -/
def wRetargetOk : World := fun args =>
  if args = ["rev-parse", "--git-dir"] then .ok ".git"
  else if args = ["rev-parse", "--abbrev-ref", "HEAD"] then .ok "feature/abc-1"
  else if args = ["remote", "get-url", "origin"] then .ok "git@example.com:r.git"
  else if args = ["status", "--porcelain"] then .ok ""
  else if args = ["ls-remote", "--heads", "origin", "feature/abc-1"] then .ok ""
  else if args = ["fetch", "origin"] then .ok ""
  else if args = ["branch", "--list", "production"] then .ok "production"
  else if args = ["branch", "--list", "stage"] then .ok "stage"
  else if args = ["rebase", "--onto", "origin/production", "origin/stage"] then .ok ""
  else .error "unexpected"

/-- Like `wRetargetOk` but the remote-branch-existence query fails. -/
def wLsFail : World := fun args =>
  if args = ["ls-remote", "--heads", "origin", "feature/abc-1"] then .error "network down"
  else wRetargetOk args

/-- Like `wRetargetOk` but the branch exists remotely and the recent-author
query fails. -/
def wLogFail : World := fun args =>
  if args = ["ls-remote", "--heads", "origin", "feature/abc-1"] then .ok "deadbeef refs/heads/feature/abc-1"
  else if args = ["log", "-n", "10", "--format=%an"] then .error "object store corrupt"
  else wRetargetOk args

/-- A cleanup world: the merged sets contain a duplicate, the protected
production branch, and a branch that needs a forced delete. -/
def wCleanup : World := fun args =>
  if args = ["rev-parse", "--git-dir"] then .ok ".git"
  else if args = ["rev-parse", "--abbrev-ref", "HEAD"] then .ok "feature/cur"
  else if args = ["branch", "--merged", "stage", "--format", "%(refname:short)"] then
    .ok "feature/a\nproduction\nfeature/a\nfeature/cur"
  else if args = ["branch", "--merged", "production", "--format", "%(refname:short)"] then
    .ok "feature/b"
  else if args = ["branch", "-d", "feature/a"] then .ok ""
  else if args = ["branch", "-d", "feature/b"] then .error "not fully merged"
  else if args = ["branch", "-D", "feature/b"] then .ok ""
  else .error "unexpected"

/-!
Helper lemmas.
-/

theorem trimS_empty : trimS "" = "" := by decide

theorem fieldsOf_empty : fieldsOf "" = [] := by decide

theorem linesOf_trim_empty : (linesOf (trimS "")).map trimS = [""] := by decide

theorem getMergedBranches_dryRun (g : Exec) (b : String) (hd : g.dryRun = true) :
    GetMergedBranches g b = .ok [] := by
  simp [GetMergedBranches, RunWithTimeout, hd, linesOf_trim_empty]

theorem getCurrentBranch_dryRun (g : Exec) (hd : g.dryRun = true) :
    GetCurrentBranch g = .ok "" := by
  simp [GetCurrentBranch, RunWithTimeout, hd, trimS_empty]

/-!
Pattern-matcher lemmas.
-/

theorem matchAtoms_nil (ds : List Char) : matchAtoms [] ds = ds.isEmpty := by
  cases ds <;> rfl

theorem charAtom_star : charAtom '*' = .anyStar := by decide

theorem charAtom_plain (c : Char) (h1 : c ≠ '*') (h2 : c ≠ '.') :
    charAtom c = .lit c := by
  simp [charAtom, h1, h2]

theorem map_charAtom_plain (l : List Char) (h : ∀ c ∈ l, c ∉ regexMeta) :
    l.map charAtom = l.map Atom.lit := by
  induction l with
  | nil => rfl
  | cons c rest ih =>
    have hc := h c (List.mem_cons_self c rest)
    simp only [regexMeta, List.mem_cons, List.mem_singleton] at hc
    push_neg at hc
    simp only [List.map_cons,
      ih (fun x hx => h x (List.mem_cons_of_mem _ hx))]
    rw [charAtom_plain c hc.2.1 hc.1]

theorem matchAtoms_anyStar (as : List Atom) (ds : List Char) :
    matchAtoms (.anyStar :: as) ds = true ↔
      ∃ d1 d2, ds = d1 ++ d2 ∧ matchAtoms as d2 = true := by
  simp only [matchAtoms, List.any_eq_true, List.mem_range]
  constructor
  · rintro ⟨k, _, hm⟩
    exact ⟨ds.take k, ds.drop k, (ds.take_append_drop k).symm, hm⟩
  · rintro ⟨d1, d2, rfl, hm⟩
    refine ⟨d1.length, ?_, ?_⟩
    · simp only [List.length_append]
      omega
    · simpa [List.drop_left] using hm

theorem matchAtoms_lits_append (xs : List Char) (rest : List Atom) (ds : List Char) :
    matchAtoms (xs.map Atom.lit ++ rest) ds = true ↔
      ∃ ds2, ds = xs ++ ds2 ∧ matchAtoms rest ds2 = true := by
  induction xs generalizing ds with
  | nil => simp
  | cons x xs ih =>
    cases ds with
    | nil =>
      simp only [List.map_cons, List.cons_append, matchAtoms]
      constructor
      · intro h
        exact absurd h (by simp)
      · rintro ⟨ds2, h, _⟩
        exact absurd h (by simp)
    | cons d ds =>
      have heq : matchAtoms (((x :: xs).map Atom.lit) ++ rest) (d :: ds) =
          (x == d && matchAtoms ((xs.map Atom.lit) ++ rest) ds) := rfl
      rw [heq, Bool.and_eq_true, beq_iff_eq, ih]
      constructor
      · rintro ⟨rfl, ds2, rfl, hm⟩
        exact ⟨ds2, by simp, hm⟩
      · rintro ⟨ds2, h, hm⟩
        injection h with h1 h2
        exact ⟨h1.symm, ds2, h2, hm⟩

theorem matchAtoms_lits (xs ds : List Char) :
    matchAtoms (xs.map Atom.lit) ds = true ↔ ds = xs := by
  have h := matchAtoms_lits_append xs [] ds
  rw [List.append_nil] at h
  rw [h]
  constructor
  · rintro ⟨ds2, rfl, hm⟩
    rw [matchAtoms_nil, List.isEmpty_iff] at hm
    simp [hm]
  · rintro rfl
    exact ⟨[], by simp, by simp [matchAtoms_nil]⟩

/-!
C2 — the wildcard pattern check.
-/

/-- C2 counterexample: the pattern `a.c*` contains exactly one `*`, yet the
check accepts the branch name `abc`, which is not `a.c` followed by any
literal substring — the `.` left in the compiled expression matches any
character rather than a literal dot. -/
theorem matchesPattern_metachar_cex :
    matchesPatternS "abc" "a.c*" = true ∧
    "abc".toList = ['a', 'b', 'c'] ∧
    "a.c*".toList = ['a', '.', 'c', '*'] ∧
    ¬ ∃ s : List Char, ['a', 'b', 'c'] = ['a', '.', 'c'] ++ s := by
  refine ⟨by decide, by decide, by decide, ?_⟩
  rintro ⟨s, h⟩
  simp only [List.cons_append, List.nil_append] at h
  injection h with _ h2
  injection h2 with h3 _
  exact absurd h3 (by decide)

/-- C2 amended: for every branch name and every pattern with exactly one `*`
whose remaining characters are not regex metacharacters, the check accepts
the branch iff it equals the pattern with the `*` replaced by some literal
substring (possibly empty); matching is case-sensitive and anchored at both
ends. -/
theorem matchesPattern_wildcard (b pre post : List Char)
    (hpre : ∀ c ∈ pre, c ∉ regexMeta) (hpost : ∀ c ∈ post, c ∉ regexMeta) :
    matchesPattern b (pre ++ '*' :: post) = true ↔ ∃ s, b = pre ++ s ++ post := by
  unfold matchesPattern
  rw [List.map_append, map_charAtom_plain pre hpre, List.map_cons, charAtom_star,
    map_charAtom_plain post hpost, matchAtoms_lits_append]
  constructor
  · rintro ⟨ds2, rfl, hm⟩
    rw [matchAtoms_anyStar] at hm
    obtain ⟨s, t, rfl, hm⟩ := hm
    rw [matchAtoms_lits] at hm
    subst hm
    exact ⟨s, by simp⟩
  · rintro ⟨s, rfl⟩
    refine ⟨s ++ post, by simp, ?_⟩
    rw [matchAtoms_anyStar]
    exact ⟨s, post, rfl, (matchAtoms_lits post post).mpr rfl⟩

/-- Witness for C2's amended statement: `feature/x` against `feature/*`. -/
theorem matchesPattern_wildcard_witness :
    ∃ s, ['f', 'x'].append [] = ['f'] ++ s ++ [] :=
  (matchesPattern_wildcard (['f', 'x'].append []) ['f'] []
    (by decide) (by decide)).mp (by decide)

/-!
C10 — detached-HEAD detection treats a failing query as a positive signal.
-/

/-- C10: for every input world, whenever the underlying symbolic-ref query
fails, `IsDetachedHEAD` returns `true` together with a nil error; the failure
is never propagated as an error. -/
theorem isDetachedHEAD_failure_means_detached (g : Exec) (e : String)
    (hd : g.dryRun = false) (h : g.world ["symbolic-ref", "-q", "HEAD"] = .error e) :
    IsDetachedHEAD g = (true, none) := by
  simp [IsDetachedHEAD, RunWithTimeout, hd, h]

/-- Witness for C10 at a concrete failing world. -/
theorem isDetachedHEAD_failure_means_detached_witness :
    IsDetachedHEAD ⟨false, wSymFail⟩ = (true, none) :=
  isDetachedHEAD_failure_means_detached ⟨false, wSymFail⟩
    "fatal: ref HEAD is not a symbolic ref" rfl rfl

/-!
C7 — Update conflict handling.
-/

/-- C7: when the rebase (resp. merge) command exits non-zero, Update's apply
phase returns the failure as a structured error value (not a crash) whose
emitted next-step suggestion is `git rebase --continue` in rebase mode and
plain `git commit` in merge mode, and the two suggestions differ. -/
theorem update_conflict_recovery (g : Exec) (remoteName sourceBranch e : String)
    (hd : g.dryRun = false) :
    (g.world ["rebase", remoteName ++ "/" ++ sourceBranch] = .error e →
      updateApplyChanges g remoteName sourceBranch "rebase" =
        (.error ("rebase failed: " ++ e),
          [["rebase", remoteName ++ "/" ++ sourceBranch]],
          ["resolve conflicts, then run: git rebase --continue"])) ∧
    (g.world ["merge", remoteName ++ "/" ++ sourceBranch] = .error e →
      updateApplyChanges g remoteName sourceBranch "merge" =
        (.error ("merge failed: " ++ e),
          [["merge", remoteName ++ "/" ++ sourceBranch]],
          ["resolve conflicts, then run: git commit"])) ∧
    ("resolve conflicts, then run: git rebase --continue" : String) ≠
      "resolve conflicts, then run: git commit" := by
  have hm : (("merge" : String) == "rebase") = false := by decide
  refine ⟨fun h => ?_, fun h => ?_, by decide⟩
  · simp [updateApplyChanges, RunT, RunWithTimeout, execTrace, hd, h]
  · simp [updateApplyChanges, RunT, RunWithTimeout, execTrace, hd, hm, h]

/-- Witness for C7 at a concrete conflicting world. -/
theorem update_conflict_recovery_witness :
    updateApplyChanges ⟨false, wConflict⟩ "origin" "stage" "rebase" =
      (.error ("rebase failed: " ++ "exit status 1"),
        [["rebase", "origin" ++ "/" ++ "stage"]],
        ["resolve conflicts, then run: git rebase --continue"]) :=
  (update_conflict_recovery ⟨false, wConflict⟩ "origin" "stage" "exit status 1" rfl).1 (by decide)

/-!
C1 — dry-run behaviour of the Executor and the values the operations report.
-/

/-- C1 counterexample: with a dirty working tree (and a branch one ahead and
two behind its remote), dry-run reports the tree as clean while real
execution reports it dirty, and the dry-run ahead/behind query fails with an
unexpected-output error instead of reporting the real counts — so the
dry-run `isClean` and ahead/behind values are not accurate. -/
theorem dryRun_values_not_accurate_cex :
    IsWorkingTreeClean ⟨true, wDirty⟩ = .ok true ∧
    IsWorkingTreeClean ⟨false, wDirty⟩ = .ok false ∧
    GetAheadBehind ⟨false, wDirty⟩ "origin" "main" = .ok (1, 2) ∧
    GetAheadBehind ⟨true, wDirty⟩ "origin" "main" =
      .error ("unexpected output from rev-list: " ++ "") := by
  decide

/-- C1 amended: in dry-run mode every Executor call skips execution (its
execution trace is empty) and returns an empty successful result, so no
workflow operation executes any external command — Cleanup's and Retarget's
traces are empty; however the `isClean` value computed under dry-run is then
always `true` and the ahead/behind query always fails with an
unexpected-output error, so the reported values are not accurate. -/
theorem dryRun_short_circuit (g : Exec) (cfg : Config)
    (args : List String) (remote branch : String) (hard override iKnow : Bool)
    (hd : g.dryRun = true) :
    RunWithTimeout g args = .ok "" ∧
    execTrace g args = [] ∧
    (Cleanup g cfg hard).2 = [] ∧
    (Retarget g cfg override iKnow).2 = [] ∧
    IsWorkingTreeClean g = .ok true ∧
    GetAheadBehind g remote branch =
      .error ("unexpected output from rev-list: " ++ "") := by
  refine ⟨by simp [RunWithTimeout, hd], by simp [execTrace, hd], ?_, ?_, ?_, ?_⟩
  · simp [Cleanup, RunT,
      getCurrentBranch_dryRun g hd, getMergedBranches_dryRun g _ hd,
      RunWithTimeout, execTrace, hd, cleanupCandidates]
  · cases hpat : !override && !matchesPatternS "" cfg.feature <;>
      simp [Retarget, RetargetChecks, GetCurrentBranchT, RunT,
        getCurrentBranch_dryRun g hd, RunWithTimeout, execTrace, hd, hpat]
  · simp [IsWorkingTreeClean, RunWithTimeout, hd, trimS_empty]
  · simp [GetAheadBehind, getCurrentBranch_dryRun g hd, RunWithTimeout, hd,
      fieldsOf_empty]

/-- Witness for C1's amended statement at a concrete dirty world. -/
theorem dryRun_short_circuit_witness :
    RunWithTimeout ⟨true, wDirty⟩ ["status", "--porcelain"] = .ok "" ∧
    execTrace ⟨true, wDirty⟩ ["status", "--porcelain"] = [] ∧
    (Cleanup ⟨true, wDirty⟩ cfgW true).2 = [] ∧
    (Retarget ⟨true, wDirty⟩ cfgW false false).2 = [] ∧
    IsWorkingTreeClean ⟨true, wDirty⟩ = .ok true ∧
    GetAheadBehind ⟨true, wDirty⟩ "origin" "main" =
      .error ("unexpected output from rev-list: " ++ "") :=
  dryRun_short_circuit ⟨true, wDirty⟩ cfgW ["status", "--porcelain"]
    "origin" "main" true false false rfl

/-!
Deduplication lemmas.
-/

theorem mem_firstSeenDedupAux (seen l : List String) (a : String) :
    a ∈ firstSeenDedupAux seen l ↔ a ∈ l ∧ a ∉ seen := by
  induction l generalizing seen with
  | nil => simp [firstSeenDedupAux]
  | cons b rest ih =>
    by_cases hb : seen.contains b
    · rw [firstSeenDedupAux, if_pos hb, ih]
      have hbmem : b ∈ seen := by simpa using hb
      constructor
      · rintro ⟨h1, h2⟩
        exact ⟨List.mem_cons_of_mem _ h1, h2⟩
      · rintro ⟨h1, h2⟩
        rcases List.mem_cons.mp h1 with rfl | h1
        · exact absurd hbmem h2
        · exact ⟨h1, h2⟩
    · rw [firstSeenDedupAux, if_neg hb]
      have hbmem : b ∉ seen := by simpa using hb
      constructor
      · intro h
        rcases List.mem_cons.mp h with rfl | h
        · exact ⟨List.mem_cons_self _ _, hbmem⟩
        · rw [ih] at h
          obtain ⟨h1, h2⟩ := h
          exact ⟨List.mem_cons_of_mem _ h1,
            fun hx => h2 (List.mem_cons_of_mem _ hx)⟩
      · rintro ⟨h1, h2⟩
        rcases List.mem_cons.mp h1 with rfl | h1
        · exact List.mem_cons_self _ _
        · by_cases hab : a = b
          · subst hab
            exact List.mem_cons_self _ _
          · apply List.mem_cons_of_mem
            rw [ih]
            refine ⟨h1, fun hx => ?_⟩
            rcases List.mem_cons.mp hx with h | h
            · exact hab h
            · exact h2 h

theorem nodup_firstSeenDedupAux (seen l : List String) :
    (firstSeenDedupAux seen l).Nodup := by
  induction l generalizing seen with
  | nil => simp [firstSeenDedupAux]
  | cons b rest ih =>
    by_cases hb : seen.contains b
    · rw [firstSeenDedupAux, if_pos hb]
      exact ih seen
    · rw [firstSeenDedupAux, if_neg hb]
      refine List.nodup_cons.mpr ⟨fun hmem => ?_, ih _⟩
      rw [mem_firstSeenDedupAux] at hmem
      exact hmem.2 (List.mem_cons_self _ _)

theorem length_firstSeenDedup (l : List String) :
    (firstSeenDedup l).length = l.toFinset.card := by
  have h1 : (firstSeenDedup l).toFinset = l.toFinset := by
    ext a
    simp [firstSeenDedup, List.mem_toFinset, mem_firstSeenDedupAux]
  have h2 : (firstSeenDedup l).toFinset.card = (firstSeenDedup l).length :=
    List.toFinset_card_of_nodup (nodup_firstSeenDedupAux [] l)
  rw [← h2, h1]

/-!
C4 — the shared-branch classification.
-/

/-- C4: over the author-name lines of the ten most recent commits, the branch
is classified shared iff it exists on the remote and the number of distinct
authors exceeds one; a branch absent from the remote is never shared; and the
gate refuses exactly when the branch is shared and the acknowledgement flag
is unset. -/
theorem retarget_shared_classification (remoteExists iKnow : Bool) (ls : List String) :
    (isSharedBranch remoteExists (firstSeenDedup ls) = true ↔
      remoteExists = true ∧ 1 < ls.toFinset.card) ∧
    (remoteExists = false → isSharedBranch remoteExists (firstSeenDedup ls) = false) ∧
    (retargetSharedCheck (.ok remoteExists) (.ok (firstSeenDedup ls)) iKnow = .refused ↔
      isSharedBranch remoteExists (firstSeenDedup ls) = true ∧ iKnow = false) := by
  refine ⟨?_, ?_, ?_⟩
  · simp [isSharedBranch, length_firstSeenDedup]
  · rintro rfl
    simp [isSharedBranch]
  · cases remoteExists with
    | false => simp [retargetSharedCheck, isSharedBranch]
    | true =>
      by_cases hl : 1 < (firstSeenDedup ls).length
      · cases iKnow <;> simp [retargetSharedCheck, isSharedBranch, hl]
      · cases iKnow <;> simp [retargetSharedCheck, isSharedBranch, hl]

/-- Witness for C4: two distinct recent authors on a remotely-existing branch
refuse the retarget when the flag is unset. -/
theorem retarget_shared_classification_witness :
    retargetSharedCheck (.ok true) (.ok (firstSeenDedup ["alice", "bob"])) false = .refused :=
  (retarget_shared_classification true false ["alice", "bob"]).2.2.mpr ⟨by decide, rfl⟩

/-!
C6 — query failures inside the shared-branch gate are swallowed.
-/

/-- C6: a failure of the remote-existence query or of the recent-authors
query is swallowed: the shared-branch gate proceeds, and — with the earlier
checks passing — Retarget's validation phase succeeds without the
acknowledgement flag being set. -/
theorem retarget_shared_errors_swallowed (g : Exec) (cfg : Config)
    (out0 cur url st e : String) (authors : Except String (List String))
    (iKnow : Bool)
    (hd : g.dryRun = false)
    (h0 : RunWithTimeout g ["rev-parse", "--git-dir"] = .ok out0)
    (h1 : GetCurrentBranch g = .ok cur)
    (hpat : matchesPatternS cur cfg.feature = true)
    (h2 : RunWithTimeout g ["remote", "get-url", cfg.remoteName] = .ok url)
    (hurl : (url == "") = false)
    (h3 : RunWithTimeout g ["status", "--porcelain"] = .ok st)
    (hst : trimS st = "") :
    retargetSharedCheck (.error e) authors iKnow = .proceeded ∧
    retargetSharedCheck (.ok true) (.error e) iKnow = .proceeded ∧
    (RunWithTimeout g ["ls-remote", "--heads", cfg.remoteName, cur] = .error e →
      RetargetChecks g cfg false false =
        (.ok cur, [["rev-parse", "--git-dir"], ["rev-parse", "--abbrev-ref", "HEAD"],
          ["remote", "get-url", cfg.remoteName], ["status", "--porcelain"],
          ["ls-remote", "--heads", cfg.remoteName, cur]])) ∧
    (∀ ls, RunWithTimeout g ["ls-remote", "--heads", cfg.remoteName, cur] = .ok ls →
      (trimS ls != "") = true →
      RunWithTimeout g ["log", "-n", "10", "--format=%an"] = .error e →
      RetargetChecks g cfg false false =
        (.ok cur, [["rev-parse", "--git-dir"], ["rev-parse", "--abbrev-ref", "HEAD"],
          ["remote", "get-url", cfg.remoteName], ["status", "--porcelain"],
          ["ls-remote", "--heads", cfg.remoteName, cur],
          ["log", "-n", "10", "--format=%an"]])) := by
  refine ⟨rfl, rfl, fun h4 => ?_, fun ls h4 hls h5 => ?_⟩
  · simp [RetargetChecks, GetCurrentBranchT, RunT, execTrace, hd,
      h0, h1, hpat, h2, hurl, h3, hst, h4]
  · simp [RetargetChecks, GetCurrentBranchT, RunT, execTrace, hd,
      h0, h1, hpat, h2, hurl, h3, hst, h4, hls, h5]

/-- Witness for C6: with a failing remote-existence query, Retarget's checks
pass without the acknowledgement flag. -/
theorem retarget_shared_errors_swallowed_witness :
    RetargetChecks ⟨false, wLsFail⟩ cfgW false false =
      (.ok "feature/abc-1", [["rev-parse", "--git-dir"],
        ["rev-parse", "--abbrev-ref", "HEAD"], ["remote", "get-url", "origin"],
        ["status", "--porcelain"], ["ls-remote", "--heads", "origin", "feature/abc-1"]]) :=
  (retarget_shared_errors_swallowed ⟨false, wLsFail⟩ cfgW ".git" "feature/abc-1"
    "git@example.com:r.git" "" "network down" (.ok []) false rfl (by decide) (by decide)
    (by decide) (by decide) (by decide) (by decide) (by decide)).2.2.1 (by decide)

/-!
C8 — Cleanup's candidate list.
-/

theorem foldl_cleanupStep (cur : String) (l : List String) (seen acc : List String) :
    (l.foldl (cleanupStep cur) (seen, acc)).2 =
      acc ++ firstSeenDedupAux seen (l.filter (fun b => b != cur)) := by
  induction l generalizing seen acc with
  | nil => simp [firstSeenDedupAux]
  | cons b rest ih =>
    rw [List.foldl_cons, List.filter_cons]
    cases hcur : b != cur with
    | false =>
      have hstep : cleanupStep cur (seen, acc) b = (seen, acc) := by
        simp [cleanupStep, hcur]
      rw [hstep]
      simp only [Bool.false_eq_true, if_false]
      exact ih seen acc
    | true =>
      by_cases hseen : seen.contains b
      · have hstep : cleanupStep cur (seen, acc) b = (seen, acc) := by
          simp [cleanupStep, hseen]
          intro h
          exact absurd (by simpa using hseen) h
        rw [hstep]
        simp only [if_true]
        rw [firstSeenDedupAux, if_pos hseen]
        exact ih seen acc
      · have hstep : cleanupStep cur (seen, acc) b = (b :: seen, acc ++ [b]) := by
          simp [cleanupStep, hcur]
          simpa using hseen
        rw [hstep]
        simp only [if_true]
        rw [firstSeenDedupAux, if_neg hseen, ih]
        simp

/-- C8: Cleanup's candidate list equals the spec's union — the branches
merged into stage followed by those merged into production, current branch
excluded, duplicates removed keeping first occurrences — and is
duplicate-free, with membership exactly the union minus the current
branch. -/
theorem cleanup_candidates_union (currentBranch : String)
    (stageMerged prodMerged : List String) :
    cleanupCandidates currentBranch stageMerged prodMerged =
      specCleanupCandidates currentBranch stageMerged prodMerged ∧
    (cleanupCandidates currentBranch stageMerged prodMerged).Nodup ∧
    (∀ b, b ∈ cleanupCandidates currentBranch stageMerged prodMerged ↔
      ((b ∈ stageMerged ∨ b ∈ prodMerged) ∧ b ≠ currentBranch)) := by
  have key : cleanupCandidates currentBranch stageMerged prodMerged =
      firstSeenDedupAux []
        ((stageMerged ++ prodMerged).filter (fun b => b != currentBranch)) := by
    rw [cleanupCandidates, ← List.foldl_append, foldl_cleanupStep]
    simp
  refine ⟨?_, ?_, fun b => ?_⟩
  · rw [key]
    rfl
  · rw [key]
    exact nodup_firstSeenDedupAux [] _
  · rw [key, mem_firstSeenDedupAux]
    simp [List.mem_filter]
    tauto

/-- Witness for C8 at a concrete merged set. -/
theorem cleanup_candidates_union_witness :
    "feature/a" ∈ cleanupCandidates "feature/cur" ["feature/a"] ["feature/b"] :=
  ((cleanup_candidates_union "feature/cur" ["feature/a"] ["feature/b"]).2.2
    "feature/a").mpr ⟨Or.inl (by decide), by decide⟩

/-!
C3 — Cleanup never deletes outside hard mode, and never deletes protected
branches.
-/

theorem mem_execTrace (g : Exec) (args cmd : List String)
    (h : cmd ∈ execTrace g args) : cmd = args := by
  by_cases hd : g.dryRun
  · simp [execTrace, hd] at h
  · simp [execTrace, hd] at h
    exact h

theorem deletesBranch_inv_d (x b : String)
    (h : deletesBranch ["branch", "-d", x] b) : b = x := by
  rcases h with h | h
  · have h2 := congrArg (fun l => l[2]?) h
    simpa using h2.symm
  · have h1 := congrArg (fun l => l[1]?) h
    simp at h1

theorem deletesBranch_inv_forced (x b : String)
    (h : deletesBranch ["branch", "-D", x] b) : b = x := by
  rcases h with h | h
  · have h1 := congrArg (fun l => l[1]?) h
    simp at h1
  · have h2 := congrArg (fun l => l[2]?) h
    simpa using h2.symm

theorem deleteTrace_no_protected (g : Exec) (cfg : Config) (l : List String)
    (cmd : List String) (hmem : cmd ∈ deleteTrace g cfg l) (b : String)
    (hdel : deletesBranch cmd b) : b ≠ cfg.production ∧ b ≠ cfg.stage := by
  induction l with
  | nil => simp [deleteTrace] at hmem
  | cons x rest ih =>
    rw [deleteTrace] at hmem
    by_cases hx : (x == cfg.stage || x == cfg.production) = true
    · rw [if_pos hx] at hmem
      exact ih hmem
    · rw [if_neg hx] at hmem
      have hxs : ¬(x = cfg.stage ∨ x = cfg.production) := by
        simpa using hx
      push_neg at hxs
      cases hrun : RunWithTimeout g ["branch", "-d", x] with
      | ok o =>
        simp only [hrun, List.append_nil] at hmem
        rcases List.mem_append.mp hmem with h | h
        · have hc := mem_execTrace g _ _ h
          subst hc
          have hb := deletesBranch_inv_d x b hdel
          subst hb
          exact ⟨hxs.2, hxs.1⟩
        · exact ih h
      | error e =>
        simp only [hrun] at hmem
        rcases List.mem_append.mp hmem with h | h
        · rcases List.mem_append.mp h with h | h
          · have hc := mem_execTrace g _ _ h
            subst hc
            have hb := deletesBranch_inv_d x b hdel
            subst hb
            exact ⟨hxs.2, hxs.1⟩
          · have hc := mem_execTrace g _ _ h
            subst hc
            have hb := deletesBranch_inv_forced x b hdel
            subst hb
            exact ⟨hxs.2, hxs.1⟩
        · exact ih h

theorem cleanup_trace_cases (g : Exec) (cfg : Config) (hard : Bool)
    (cmd : List String) (hmem : cmd ∈ (Cleanup g cfg hard).2) :
    cmd = ["rev-parse", "--git-dir"] ∨ cmd = ["rev-parse", "--abbrev-ref", "HEAD"] ∨
    cmd = ["branch", "--merged", cfg.stage, "--format", "%(refname:short)"] ∨
    cmd = ["branch", "--merged", cfg.production, "--format", "%(refname:short)"] ∨
    (hard = true ∧ ∃ l, cmd ∈ deleteTrace g cfg l) := by
  simp only [Cleanup] at hmem
  cases h0 : RunWithTimeout g ["rev-parse", "--git-dir"] with
  | error e0 =>
    simp only [h0] at hmem
    exact Or.inl (mem_execTrace g _ _ hmem)
  | ok o0 =>
    simp only [h0] at hmem
    cases h1 : GetCurrentBranch g with
    | error e1 =>
      simp only [h1] at hmem
      rcases List.mem_append.mp hmem with h | h
      · exact Or.inl (mem_execTrace g _ _ h)
      · exact Or.inr (Or.inl (mem_execTrace g _ _ h))
    | ok cur =>
      simp only [h1] at hmem
      have reads : ∀ c, c ∈
          execTrace g ["rev-parse", "--git-dir"] ++
            execTrace g ["rev-parse", "--abbrev-ref", "HEAD"] ++
            execTrace g ["branch", "--merged", cfg.stage, "--format", "%(refname:short)"] ++
            execTrace g ["branch", "--merged", cfg.production, "--format", "%(refname:short)"] →
          c = ["rev-parse", "--git-dir"] ∨ c = ["rev-parse", "--abbrev-ref", "HEAD"] ∨
          c = ["branch", "--merged", cfg.stage, "--format", "%(refname:short)"] ∨
          c = ["branch", "--merged", cfg.production, "--format", "%(refname:short)"] := by
        intro c hc
        rcases List.mem_append.mp hc with hc | hc
        · rcases List.mem_append.mp hc with hc | hc
          · rcases List.mem_append.mp hc with hc | hc
            · exact Or.inl (mem_execTrace g _ _ hc)
            · exact Or.inr (Or.inl (mem_execTrace g _ _ hc))
          · exact Or.inr (Or.inr (Or.inl (mem_execTrace g _ _ hc)))
        · exact Or.inr (Or.inr (Or.inr (mem_execTrace g _ _ hc)))
      split at hmem
      · rcases reads cmd hmem with h | h | h | h
        · exact Or.inl h
        · exact Or.inr (Or.inl h)
        · exact Or.inr (Or.inr (Or.inl h))
        · exact Or.inr (Or.inr (Or.inr (Or.inl h)))
      · split at hmem
        · next hhard =>
          rcases List.mem_append.mp hmem with h | h
          · rcases reads cmd h with h | h | h | h
            · exact Or.inl h
            · exact Or.inr (Or.inl h)
            · exact Or.inr (Or.inr (Or.inl h))
            · exact Or.inr (Or.inr (Or.inr (Or.inl h)))
          · exact Or.inr (Or.inr (Or.inr (Or.inr ⟨hhard, _, h⟩)))
        · rcases reads cmd hmem with h | h | h | h
          · exact Or.inl h
          · exact Or.inr (Or.inl h)
          · exact Or.inr (Or.inr (Or.inl h))
          · exact Or.inr (Or.inr (Or.inr (Or.inl h)))

/-- C3: for every configuration and world, Cleanup without `--hard` never
issues a branch-delete command, and Cleanup with `--hard` never issues a
delete for a branch named like the configured production or stage branch,
even if that name is in the merged candidate set. -/
theorem cleanup_delete_safety (g : Exec) (cfg : Config) :
    (∀ cmd ∈ (Cleanup g cfg false).2, ∀ b, ¬ deletesBranch cmd b) ∧
    (∀ cmd ∈ (Cleanup g cfg true).2, ∀ b, deletesBranch cmd b →
      b ≠ cfg.production ∧ b ≠ cfg.stage) := by
  constructor
  · intro cmd hmem b hdel
    rcases cleanup_trace_cases g cfg false cmd hmem with h | h | h | h | ⟨hfalse, _⟩
    · subst h
      rcases hdel with h | h <;> simp at h
    · subst h
      rcases hdel with h | h <;>
        · have h1 := congrArg (fun l => l[0]?) h
          simp at h1
    · subst h
      rcases hdel with h | h <;>
        · have h1 := congrArg (fun l => l[3]?) h
          simp at h1
    · subst h
      rcases hdel with h | h <;>
        · have h1 := congrArg (fun l => l[3]?) h
          simp at h1
    · exact absurd hfalse (by simp)
  · intro cmd hmem b hdel
    rcases cleanup_trace_cases g cfg true cmd hmem with h | h | h | h | ⟨_, l, hl⟩
    · subst h
      rcases hdel with h | h <;> simp at h
    · subst h
      rcases hdel with h | h <;>
        · have h1 := congrArg (fun l => l[0]?) h
          simp at h1
    · subst h
      rcases hdel with h | h <;>
        · have h1 := congrArg (fun l => l[3]?) h
          simp at h1
    · subst h
      rcases hdel with h | h <;>
        · have h1 := congrArg (fun l => l[3]?) h
          simp at h1
    · exact deleteTrace_no_protected g cfg l cmd hl b hdel

/-- Witness for C3: a hard-mode delete issued at a concrete world is for a
branch distinct from both protected names. -/
theorem cleanup_delete_safety_witness :
    "feature/a" ≠ cfgW.production ∧ "feature/a" ≠ cfgW.stage :=
  (cleanup_delete_safety ⟨false, wCleanup⟩ cfgW).2 ["branch", "-d", "feature/a"]
    (by decide) "feature/a" (Or.inl rfl)

/-!
C5 — the order of Retarget's checks and the position of its mutations.
-/

/-- C5: Retarget checks, in order, (1) the feature pattern unless overridden,
(2) remote reachability, (3) the clean working tree, (4) the shared-branch
heuristic; a failure of any aborts with only read commands executed (the
explicit traces contain no fetch/rebase); once every check passes, the
mutation phase runs: fetch first (whose failure aborts), then the onto- and
from- branch existence validations, and only then the `rebase --onto`
command, last. -/
theorem retarget_validation_order (g : Exec) (cfg : Config) (out0 cur : String)
    (hd : g.dryRun = false)
    (h0 : RunWithTimeout g ["rev-parse", "--git-dir"] = .ok out0)
    (h1 : GetCurrentBranch g = .ok cur) :
    (matchesPatternS cur cfg.feature = false →
      RetargetChecks g cfg false false =
        (.error ("current branch '" ++ cur ++ "' does not match feature pattern '"
            ++ cfg.feature ++ "' (use --override to bypass)"),
          [["rev-parse", "--git-dir"], ["rev-parse", "--abbrev-ref", "HEAD"]])) ∧
    (∀ e2, matchesPatternS cur cfg.feature = true →
      RunWithTimeout g ["remote", "get-url", cfg.remoteName] = .error e2 →
      RetargetChecks g cfg false false =
        (.error ("remote '" ++ cfg.remoteName ++ "' does not exist → run 'git remote add "
            ++ cfg.remoteName ++ " <url>'"),
          [["rev-parse", "--git-dir"], ["rev-parse", "--abbrev-ref", "HEAD"],
            ["remote", "get-url", cfg.remoteName]])) ∧
    (∀ url st, matchesPatternS cur cfg.feature = true →
      RunWithTimeout g ["remote", "get-url", cfg.remoteName] = .ok url →
      (url == "") = false →
      RunWithTimeout g ["status", "--porcelain"] = .ok st → (trimS st != "") = true →
      RetargetChecks g cfg false false =
        (.error "working tree has uncommitted changes",
          [["rev-parse", "--git-dir"], ["rev-parse", "--abbrev-ref", "HEAD"],
            ["remote", "get-url", cfg.remoteName], ["status", "--porcelain"]])) ∧
    (∀ url st ls lg, matchesPatternS cur cfg.feature = true →
      RunWithTimeout g ["remote", "get-url", cfg.remoteName] = .ok url →
      (url == "") = false →
      RunWithTimeout g ["status", "--porcelain"] = .ok st → trimS st = "" →
      RunWithTimeout g ["ls-remote", "--heads", cfg.remoteName, cur] = .ok ls →
      (trimS ls != "") = true →
      RunWithTimeout g ["log", "-n", "10", "--format=%an"] = .ok lg →
      (1 < (firstSeenDedup (outputLines lg)).length) →
      RetargetChecks g cfg false false =
        (.error "branch appears shared → use --i-know-what-im-doing to proceed",
          [["rev-parse", "--git-dir"], ["rev-parse", "--abbrev-ref", "HEAD"],
            ["remote", "get-url", cfg.remoteName], ["status", "--porcelain"],
            ["ls-remote", "--heads", cfg.remoteName, cur],
            ["log", "-n", "10", "--format=%an"]])) ∧
    (∀ cur2 t, RetargetChecks g cfg false false = (.ok cur2, t) →
      Retarget g cfg false false =
        ((RetargetMutate g cfg).1, t ++ (RetargetMutate g cfg).2)) ∧
    (∀ e6, RunWithTimeout g ["fetch", cfg.remoteName] = .error e6 →
      RetargetMutate g cfg =
        (.error ("failed to fetch: " ++ e6), [["fetch", cfg.remoteName]])) ∧
    (∀ o6 outP lsP, RunWithTimeout g ["fetch", cfg.remoteName] = .ok o6 →
      RunWithTimeout g ["branch", "--list", cfg.production] = .ok outP →
      trimS outP = "" →
      RunWithTimeout g ["ls-remote", "--heads", cfg.remoteName, cfg.production] = .ok lsP →
      trimS lsP = "" →
      RetargetMutate g cfg =
        (.error ("target branch '" ++ cfg.production ++ "' does not exist: "
            ++ ("branch '" ++ cfg.production ++ "' does not exist locally or on '"
              ++ cfg.remoteName ++ "'")),
          [["fetch", cfg.remoteName], ["branch", "--list", cfg.production],
            ["ls-remote", "--heads", cfg.remoteName, cfg.production]])) ∧
    (∀ o6 outP outS o9, RunWithTimeout g ["fetch", cfg.remoteName] = .ok o6 →
      RunWithTimeout g ["branch", "--list", cfg.production] = .ok outP →
      (trimS outP != "") = true →
      RunWithTimeout g ["branch", "--list", cfg.stage] = .ok outS →
      (trimS outS != "") = true →
      RunWithTimeout g ["rebase", "--onto", cfg.remoteName ++ "/" ++ cfg.production,
        cfg.remoteName ++ "/" ++ cfg.stage] = .ok o9 →
      RetargetMutate g cfg =
        (.ok (), [["fetch", cfg.remoteName], ["branch", "--list", cfg.production],
          ["branch", "--list", cfg.stage],
          ["rebase", "--onto", cfg.remoteName ++ "/" ++ cfg.production,
            cfg.remoteName ++ "/" ++ cfg.stage]])) := by
  refine ⟨fun hp => ?_, fun e2 hp h2 => ?_, fun url st hp h2 hurl h3 hst => ?_,
    fun url st ls lg hp h2 hurl h3 hst h4 hls h5 hlg => ?_,
    fun cur2 t hok => ?_, fun e6 h6 => ?_,
    fun o6 outP lsP h6 h7 hout h8 hls2 => ?_,
    fun o6 outP outS o9 h6 h7 hout h8 houtS h9 => ?_⟩
  · simp [RetargetChecks, GetCurrentBranchT, RunT, execTrace, hd, h0, h1, hp]
  · simp [RetargetChecks, GetCurrentBranchT, RunT, execTrace, hd, h0, h1, hp, h2]
  · simp [RetargetChecks, GetCurrentBranchT, RunT, execTrace, hd, h0, h1, hp, h2,
      hurl, h3, hst]
  · simp [RetargetChecks, GetCurrentBranchT, RunT, execTrace, hd, h0, h1, hp, h2,
      hurl, h3, hst, h4, hls, h5, hlg]
  · simp [Retarget, hok]
  · simp [RetargetMutate, RunT, execTrace, hd, h6]
  · simp [RetargetMutate, ValidateBranchExistsT, RunT, execTrace, hd, h6, h7,
      hout, h8, hls2]
  · simp [RetargetMutate, ValidateBranchExistsT, RunT, execTrace, hd, h6, h7,
      hout, h8, houtS, h9]

/-- Witness for C5: the full successful Retarget trace at a concrete world,
ending in the rebase with every check and validation before it. -/
theorem retarget_validation_order_witness :
    Retarget ⟨false, wRetargetOk⟩ cfgW false false =
      (.ok (), [["rev-parse", "--git-dir"], ["rev-parse", "--abbrev-ref", "HEAD"],
        ["remote", "get-url", "origin"], ["status", "--porcelain"],
        ["ls-remote", "--heads", "origin", "feature/abc-1"],
        ["fetch", "origin"], ["branch", "--list", "production"],
        ["branch", "--list", "stage"],
        ["rebase", "--onto", "origin" ++ "/" ++ "production",
          "origin" ++ "/" ++ "stage"]]) := by
  have h := retarget_validation_order ⟨false, wRetargetOk⟩ cfgW ".git" "feature/abc-1"
    rfl (by decide) (by decide)
  have hcomp := h.2.2.2.2.1
  have hmut := h.2.2.2.2.2.2.2 "" "production" "stage" ""
    (by decide) (by decide) (by decide) (by decide) (by decide) (by decide)
  have hchecks : RetargetChecks ⟨false, wRetargetOk⟩ cfgW false false =
      (.ok "feature/abc-1", [["rev-parse", "--git-dir"],
        ["rev-parse", "--abbrev-ref", "HEAD"], ["remote", "get-url", "origin"],
        ["status", "--porcelain"],
        ["ls-remote", "--heads", "origin", "feature/abc-1"]]) := by decide
  rw [hcomp "feature/abc-1" _ hchecks, hmut]
  decide

/-!
C9 — configuration loader invariants.
-/

theorem resolveConfig_nonempty (raw : RawConfig) :
    (resolveConfig raw).production ≠ "" ∧ (resolveConfig raw).stage ≠ "" ∧
    (resolveConfig raw).remoteName ≠ "" := by
  refine ⟨?_, ?_, ?_⟩ <;>
    · simp only [resolveConfig]
      split
      · decide
      · next h => simpa using h

theorem validate_ok_implies (c : Config) (u : Unit) (h : c.Validate = .ok u) :
    c.production ≠ "" ∧ c.stage ≠ "" ∧ c.remoteName ≠ "" ∧
    c.production ≠ c.stage := by
  unfold Config.Validate at h
  by_cases h1 : (c.production == "") = true
  · rw [if_pos h1] at h
    exact absurd h (by simp)
  · rw [if_neg h1] at h
    by_cases h2 : (c.stage == "") = true
    · rw [if_pos h2] at h
      exact absurd h (by simp)
    · rw [if_neg h2] at h
      by_cases h3 : (c.production == c.stage) = true
      · rw [if_pos h3] at h
        exact absurd h (by simp)
      · rw [if_neg h3] at h
        by_cases h4 : (c.remoteName == "") = true
        · rw [if_pos h4] at h
          exact absurd h (by simp)
        · exact ⟨by simpa using h1, by simpa using h2, by simpa using h4,
            by simpa using h3⟩

/-- C9: every configuration returned successfully by the loader has non-empty
production, stage and remote names with production distinct from stage; a
resolved configuration violating the distinctness invariant makes the loader
return an error instead; and any field absent from the file gets its
default. -/
theorem config_load_invariants :
    (∀ inp c, Load inp = .ok c →
      c.production ≠ "" ∧ c.stage ≠ "" ∧ c.remoteName ≠ "" ∧
      c.production ≠ c.stage) ∧
    (∀ raw, (resolveConfig raw).production = (resolveConfig raw).stage →
      ∃ e, Load (.file raw) = .error e) ∧
    (∀ raw c, Load (.file raw) = .ok c →
      (raw.production = "" → c.production = DefaultProductionBranch) ∧
      (raw.stage = "" → c.stage = DefaultStageBranch) ∧
      (raw.remoteName = "" → c.remoteName = DefaultRemoteName) ∧
      (raw.feature = "" → c.feature = DefaultFeaturePattern) ∧
      (raw.hotfix = "" → c.hotfix = DefaultHotfixPattern)) := by
  refine ⟨fun inp c h => ?_, fun raw heq => ?_, fun raw c h => ?_⟩
  · cases inp with
    | noRepo => simp [Load] at h
    | readFailed => simp [Load] at h
    | parseFailed => simp [Load] at h
    | noFile =>
      have hd : Load .noFile = .ok defaultConfig := rfl
      rw [hd] at h
      obtain rfl : defaultConfig = c := by simpa using h
      decide
    | file raw =>
      simp only [Load] at h
      cases hv : (resolveConfig raw).Validate with
      | error e =>
        rw [hv] at h
        exact absurd h (by simp)
      | ok u =>
        rw [hv] at h
        obtain rfl : resolveConfig raw = c := by simpa using h
        exact validate_ok_implies _ u hv
  · have hne := resolveConfig_nonempty raw
    refine ⟨"branch.production and branch.stage must be different", ?_⟩
    have hv : (resolveConfig raw).Validate =
        .error "branch.production and branch.stage must be different" := by
      unfold Config.Validate
      rw [if_neg (by simpa using hne.1), if_neg (by simpa using hne.2.1),
        if_pos (by simpa using heq)]
    simp only [Load, hv]
  · simp only [Load] at h
    cases hv : (resolveConfig raw).Validate with
    | error e =>
      rw [hv] at h
      exact absurd h (by simp)
    | ok u =>
      rw [hv] at h
      obtain rfl : resolveConfig raw = c := by simpa using h
      refine ⟨fun he => ?_, fun he => ?_, fun he => ?_, fun he => ?_, fun he => ?_⟩ <;>
        simp [resolveConfig, he]

/-- Witness for C9: the defaults-only configuration satisfies the
invariants. -/
theorem config_load_invariants_witness :
    defaultConfig.production ≠ "" ∧ defaultConfig.stage ≠ "" ∧
    defaultConfig.remoteName ≠ "" ∧
    defaultConfig.production ≠ defaultConfig.stage :=
  config_load_invariants.1 .noFile defaultConfig rfl

end Gitext
